import Mathlib

/-!
Verification development for the `airtable-geojson-api` server (`src/server.js`).

The server converts Airtable records into a GeoJSON FeatureCollection and
serves image-redirect endpoints.  Its field-normalization layer operates on
arbitrarily-shaped JSON values, embedded here as the inductive `JsonVal`.
JavaScript numbers are embedded as exact rationals (`Rat`); this matches IEEE
doubles on every input exercised below and idealizes them elsewhere.
Machine-level coercions (`String(x)`, truthiness, `||`, `??`, optional
chaining, `JSON.parse`) are modelled explicitly.  Functions whose JavaScript
originals recurse through `JSON.parse` output (which is not a structural
subterm) take a fuel argument; callers pass `jsize v + 1`, which dominates
the recursion depth because parsing a string literal always yields a value
smaller than the literal (quotes and brackets are consumed).
-/

/-- A JavaScript/JSON runtime value as the server sees it.  `null` also stands
for `undefined`: the two are distinguishable in JavaScript, but every use in
`server.js` (`v == null`, truthiness, `??`, optional chaining, `Array.isArray`,
`typeof v === 'object'` guarded by `&& v`) treats them identically. -/
inductive JsonVal where
  | null
  | bool (b : Bool)
  | num (q : Rat)
  | str (s : String)
  | arr (elems : List JsonVal)
  | obj (fields : List (String × JsonVal))

/-- JavaScript truthiness (`if (v)`), restricted to the embedded values. -/
def truthy : JsonVal → Bool
  | .null => false
  | .bool b => b
  | .num q => q != 0
  | .str s => !s.isEmpty
  | .arr _ => true
  | .obj _ => true

/-- Property read `v[k]`: `some` when `v` is an object carrying the key,
`none` (JavaScript `undefined`) otherwise.  Object keys are unique in the
embedding (the JSON-parser below collapses duplicates the way
`JSON.parse` does, last value at first position). -/
def objGet : JsonVal → String → Option JsonVal
  | .obj kvs, k => (kvs.find? (fun p => p.1 == k)).map (·.2)
  | _, _ => none

/-- Truthiness of a possibly-absent value (`undefined` is falsy). -/
def truthyOpt : Option JsonVal → Bool
  | none => false
  | some v => truthy v

/-- Optional-chain read `v?.k1?.k2...` collapsing `null`/`undefined`. -/
def chainGet (v : JsonVal) : List String → Option JsonVal
  | [] => some v
  | k :: ks => match objGet v k with
    | none => none
    | some w => chainGet w ks

/-- First truthy value of a `||` chain, else `none` (the chain's final `null`). -/
def firstTruthy : List (Option JsonVal) → Option JsonVal
  | [] => none
  | o :: os => if truthyOpt o then o else firstTruthy os

/-- First non-nullish value of a `??` chain (`null`/`undefined` skipped). -/
def firstNonNull : List (Option JsonVal) → Option JsonVal
  | [] => none
  | o :: os => match o with
    | some .null => firstNonNull os
    | none => firstNonNull os
    | some v => some v

mutual
/-- Structural size of a value, used as recursion fuel: it dominates the
recursion depth of every walk below, including walks that re-enter through
`JSON.parse` (a parsed value is always smaller than the string literal it
came from, since quotes and brackets are consumed). -/
def jsize : JsonVal → Nat
  | .null => 1
  | .bool _ => 1
  | .num _ => 1
  | .str s => s.length + 1
  | .arr vs => 1 + jsizeL vs
  | .obj kvs => 1 + jsizeKV kvs
/-- Summed size of a list of values. -/
def jsizeL : List JsonVal → Nat
  | [] => 0
  | v :: t => jsize v + jsizeL t
/-- Summed size of an object's fields. -/
def jsizeKV : List (String × JsonVal) → Nat
  | [] => 0
  | (k, v) :: t => k.length + 1 + jsize v + jsizeKV t
end

/-- The whitespace class used by `trim()`, `\s` and `Number()` coercion,
restricted to ASCII (the server never meets non-ASCII whitespace). -/
def isJsWs (c : Char) : Bool :=
  c == ' ' || c == '\t' || c == '\n' || c == '\r' ||
  c == Char.ofNat 11 || c == Char.ofNat 12

/-- Drop trailing characters satisfying `p`. -/
def dropTrailing (p : Char → Bool) (l : List Char) : List Char :=
  (l.reverse.dropWhile p).reverse

/-- `String.prototype.trim()` on a character list. -/
def jsTrimL (l : List Char) : List Char :=
  dropTrailing isJsWs (l.dropWhile isJsWs)

/-- `String.prototype.trim()`. -/
def jsTrim (s : String) : String :=
  String.mk (jsTrimL s.data)

/-- Decimal digit string of a natural number. -/
def natDigits (n : Nat) : String := toString n

/-- Render a rational the way JavaScript string-coerces the numbers the server
can actually meet (integers, and fractions whose reduced denominator divides a
power of ten, i.e. everything `JSON.parse` or `Number()` can produce).  The
`"?"` fallback is unreachable from parsed input. -/
def numToString (q : Rat) : String :=
  let sign := if q < 0 then "-" else ""
  if q.den == 1 then sign ++ natDigits q.num.natAbs
  else
    match (List.range 40).find? (fun k => 10 ^ (k + 1) % q.den == 0) with
    | some k0 =>
      let k := k0 + 1
      let scaled := q.num.natAbs * (10 ^ k / q.den)
      let ip := scaled / 10 ^ k
      let fp := scaled % 10 ^ k
      let fpStr := natDigits fp
      let padded := String.mk (List.replicate (k - fpStr.length) '0') ++ fpStr
      let trimmed := String.mk (dropTrailing (· == '0') padded.data)
      sign ++ natDigits ip ++ "." ++ trimmed
    | none => "?"

/-- `String(v)` coercion.  Arrays stringify via `Array.prototype.join(',')`,
which renders `null`/`undefined` elements as the empty string; plain objects
stringify as `"[object Object]"`.  Fueled for the nested-array recursion. -/
def jsToStringFuel : Nat → JsonVal → String
  | 0, _ => ""
  | _ + 1, .null => "null"
  | _ + 1, .bool b => if b then "true" else "false"
  | _ + 1, .num q => numToString q
  | _ + 1, .str s => s
  | n + 1, .arr vs =>
    String.intercalate ","
      (vs.map (fun v => match v with
        | .null => ""
        | w => jsToStringFuel n w))
  | _ + 1, .obj _ => "[object Object]"

/-- `String(v)` coercion at ample fuel. -/
def jsToString (v : JsonVal) : String := jsToStringFuel (jsize v + 1) v

/-- The apostrophe character (written by code to keep it out of literals). -/
def aposChar : Char := Char.ofNat 39

/-- `replace(/^%20+/i, '')`: in this pattern the `+` binds to the atom `0`,
and the replace is non-global, so exactly one leading match of `%2` followed
by one or more zeros is removed — `"%20%20x"` keeps its second token and
`"%200x"` loses all its zeros.  (The `i` flag is moot, the pattern has no
letters.) -/
def strip20 (l : List Char) : List Char :=
  match l with
  | '%' :: '2' :: '0' :: rest => rest.dropWhile (· == '0')
  | _ => l

/-- `replace(/^\s+/, '')`. -/
def stripLeadWs (l : List Char) : List Char := l.dropWhile isJsWs

/-- `replace(/^(https?:)\/{2,}/i, p1 + '//')`: if the string opens with an
`http:`/`https:` scheme (case-insensitively) followed by two or more slashes,
collapse those slashes to exactly two, keeping the scheme's original case. -/
def protoFix (l : List Char) : List Char :=
  let n : Nat :=
    if (l.take 6).map Char.toLower == "https:".data then 6
    else if (l.take 5).map Char.toLower == "http:".data then 5
    else 0
  if n == 0 then l
  else
    match l.drop n with
    | '/' :: '/' :: _ => l.take n ++ '/' :: '/' :: (l.drop n).dropWhile (· == '/')
    | _ => l

/-- `replace(/([^:])\/{2,}/g, '$1/')`: scanning left to right, a run of two or
more slashes immediately after a non-colon character collapses to one slash,
and scanning resumes after the run.  Fueled (the skip past a run is not a
structural step); `length + 1` fuel always suffices. -/
def collapseSlashesF : Nat → List Char → List Char
  | 0, l => l
  | _ + 1, [] => []
  | n + 1, c :: rest =>
    if c == ':' then c :: collapseSlashesF n rest
    else
      match rest with
      | '/' :: '/' :: _ => c :: '/' :: collapseSlashesF n (rest.dropWhile (· == '/'))
      | _ => c :: collapseSlashesF n rest

/-- `normalizeUrl` (server.js lines 71-77): `String(u || '').trim()`, strip
one leading `%2`-plus-zeros match and then leading whitespace, collapse the
scheme's slashes to two, collapse other slash runs to one.  On a string
argument `u || ''` is the identity (only `''` is falsy and
`String('') = ''`). -/
def normalizeUrl (s : String) : String :=
  let l0 := jsTrimL s.data
  let l1 := protoFix (stripLeadWs (strip20 l0))
  String.mk (collapseSlashesF (l1.length + 1) l1)

/-- `/^https?:\/\//i.test(s)`. -/
def httpTest (s : String) : Bool :=
  match s.data.map Char.toLower with
  | 'h' :: 't' :: 't' :: 'p' :: rest =>
    match rest with
    | ':' :: '/' :: '/' :: _ => true
    | 's' :: ':' :: '/' :: '/' :: _ => true
    | _ => false
  | _ => false

/-- Split on single characters satisfying `p`, keeping empty pieces, the way
`String.prototype.split` does with a character-class regex. -/
def splitByPredGo (p : Char → Bool) : List Char → List Char → List String
  | [], cur => [String.mk cur.reverse]
  | c :: t, cur =>
    if p c then String.mk cur.reverse :: splitByPredGo p t []
    else splitByPredGo p t (c :: cur)

/-- `s.split(',')` / `s.split(/[;,]/)` driver. -/
def splitByPred (p : Char → Bool) (s : String) : List String :=
  splitByPredGo p s.data []

/-- `s.split('","')`: split on the three-character sequence `","`,
non-overlapping, left to right. -/
def splitQCQGo : List Char → List Char → List String
  | [], cur => [String.mk cur.reverse]
  | '"' :: ',' :: '"' :: t, cur => String.mk cur.reverse :: splitQCQGo t []
  | c :: t, cur => splitQCQGo t (c :: cur)

/-- `s.split('","')`. -/
def splitQCQ (s : String) : List String := splitQCQGo s.data []

/-- `x.replace(/^"+|"+$/g, '')`: strip a full leading and a full trailing run
of double quotes. -/
def stripQuoteRuns (s : String) : String :=
  String.mk (dropTrailing (· == '"') (s.data.dropWhile (· == '"')))

/-- Leading half of `replace(/^(\[|\]+|"+|'+)|(\[|\]+|"+|'+)$/g, '')`: the `^`
alternative matches a single `[` (no `+` in the source pattern) or a maximal
run of one repeated character among `]`, `"`, `'`. -/
def stripEdgeLead (l : List Char) : List Char :=
  match l with
  | [] => []
  | c :: t =>
    if c == '[' then t
    else if c == ']' || c == '"' || c == aposChar then (c :: t).dropWhile (· == c)
    else c :: t

/-- Trailing half of the same replace: the `$` alternative removes one final
`[` or the maximal final run of one repeated character among `]`, `"`, `'`.
(The two anchored alternatives are the only possible matches, so the global
replace is exactly leading-then-trailing.) -/
def stripEdgeTrail (l : List Char) : List Char :=
  match l.reverse with
  | [] => []
  | c :: t =>
    if c == '[' then t.reverse
    else if c == ']' || c == '"' || c == aposChar then
      (((c :: t).dropWhile (· == c)).reverse)
    else l

/-- The whole bracket/quote-stripping replace from `pushClean`. -/
def stripEdges (l : List Char) : List Char := stripEdgeTrail (stripEdgeLead l)

/-- `replace(/\s+/g, ' ')`: every whitespace run becomes a single space. -/
def collapseWsGo : Bool → List Char → List Char
  | _, [] => []
  | prevWs, c :: t =>
    if isJsWs c then
      if prevWs then collapseWsGo true t else ' ' :: collapseWsGo true t
    else c :: collapseWsGo false t

/-- `t.replace(/\s+/g, ' ').trim()`. -/
def collapseWsTrim (l : List Char) : List Char :=
  jsTrimL (collapseWsGo false l)

/-- Is `c` in `[a-zA-Z0-9]`? -/
def isAlnumChar (c : Char) : Bool :=
  ('a' ≤ c && c ≤ 'z') || ('A' ≤ c && c ≤ 'Z') || ('0' ≤ c && c ≤ '9')

/-- `/^rec[a-zA-Z0-9]{14}$/.test(t)`: the Airtable record-reference shape,
`rec` followed by exactly fourteen alphanumerics. -/
def recIdTest (s : String) : Bool :=
  match s.data with
  | 'r' :: 'e' :: 'c' :: rest => rest.length == 14 && rest.all isAlnumChar
  | _ => false

/-! ### `JSON.parse` (RFC 8259 / ECMA-404 strict grammar) -/

/-- JSON's insignificant-whitespace class. -/
def isJsonWs (c : Char) : Bool :=
  c == ' ' || c == '\t' || c == '\n' || c == '\r'

/-- Skip insignificant whitespace. -/
def skipJWs (l : List Char) : List Char := l.dropWhile isJsonWs

/-- ASCII decimal digit? -/
def isDigitChar (c : Char) : Bool := '0' ≤ c && c ≤ '9'

/-- Hex digit value, computed on code points. -/
def hexVal (c : Char) : Option Nat :=
  let n := c.toNat
  if 48 ≤ n && n ≤ 57 then some (n - 48)
  else if 97 ≤ n && n ≤ 102 then some (n - 87)
  else if 65 ≤ n && n ≤ 70 then some (n - 55)
  else none

/-- Numeric value of a digit list. -/
def digitsToNat (ds : List Char) : Nat :=
  ds.foldl (fun acc c => 10 * acc + (c.toNat - 48)) 0

/-- The single-character JSON string escapes. -/
def escChar (e : Char) : Option Char :=
  if e == '"' || e == '\\' || e == '/' then some e
  else if e == 'b' then some (Char.ofNat 8)
  else if e == 'f' then some (Char.ofNat 12)
  else if e == 'n' then some '\n'
  else if e == 'r' then some '\r'
  else if e == 't' then some '\t'
  else none

/-- Body of a JSON string literal after the opening quote: content plus the
input remaining after the closing quote.  Escapes follow the JSON grammar;
unescaped control characters are refused.  A `\uXXXX` outside the scalar range
degrades to the null character (the surrogate-pair subtlety of UTF-16 is not
needed by any input considered here). -/
def parseStringBody : List Char → Option (List Char × List Char)
  | [] => none
  | c0 :: t0 =>
    if c0 == '"' then some ([], t0)
    else if c0 == '\\' then
      match t0 with
      | [] => none
      | e :: t1 =>
        if e == 'u' then
          match t1 with
          | h1 :: h2 :: h3 :: h4 :: t2 =>
            match hexVal h1, hexVal h2, hexVal h3, hexVal h4 with
            | some v1, some v2, some v3, some v4 =>
              (parseStringBody t2).map (fun p =>
                (Char.ofNat (v1 * 4096 + v2 * 256 + v3 * 16 + v4) :: p.1, p.2))
            | _, _, _, _ => none
          | _ => none
        else
          match escChar e with
          | some c => (parseStringBody t1).map (fun p => (c :: p.1, p.2))
          | none => none
    else if c0.toNat < 32 then none
    else (parseStringBody t0).map (fun p => (c0 :: p.1, p.2))

/-- A JSON number starting at the head of the input: exact rational value and
remaining input.  Grammar: `-? (0 | [1-9][0-9]*) (. [0-9]+)? ([eE][+-]?[0-9]+)?`. -/
def parseJNumber (l : List Char) : Option (Rat × List Char) :=
  let (neg, l1) := match l with
    | '-' :: t => (true, t)
    | _ => (false, l)
  let intPart : Option (List Char × List Char) := match l1 with
    | '0' :: t => some (['0'], t)
    | c :: _ =>
      if isDigitChar c && c != '0' then
        some (l1.takeWhile isDigitChar, l1.dropWhile isDigitChar)
      else none
    | [] => none
  match intPart with
  | none => none
  | some (ids, l2) =>
    let fracPart : Option (List Char × List Char) := match l2 with
      | '.' :: t =>
        match t.takeWhile isDigitChar with
        | [] => none
        | fs => some (fs, t.dropWhile isDigitChar)
      | _ => some ([], l2)
    match fracPart with
    | none => none
    | some (fds, l3) =>
      let expPart : Option (Int × List Char) := match l3 with
        | e :: t =>
          if e == 'e' || e == 'E' then
            let (esign, t1) := match t with
              | '+' :: t2 => ((1 : Int), t2)
              | '-' :: t2 => ((-1 : Int), t2)
              | _ => ((1 : Int), t)
            match t1.takeWhile isDigitChar with
            | [] => none
            | es => some (esign * (digitsToNat es : Int), t1.dropWhile isDigitChar)
          else some (0, l3)
        | [] => some (0, l3)
      match expPart with
      | none => none
      | some (ex, l4) =>
        let mag : Nat := digitsToNat (ids ++ fds)
        let m : Int := if neg then -(mag : Int) else (mag : Int)
        let e10 : Int := ex - (fds.length : Int)
        let q : Rat :=
          if 0 ≤ e10 then ((m * 10 ^ e10.toNat : Int) : Rat)
          else (m : Rat) / ((10 ^ (-e10).toNat : Nat) : Rat)
        some (q, l4)

/-- Consume an expected keyword tail character by character. -/
def stripKeyword : List Char → List Char → Option (List Char)
  | [], l => some l
  | k :: ks, c :: cs => if c == k then stripKeyword ks cs else none
  | _ :: _, [] => none

/-- Insert a key into an object the way repeated keys behave in a JavaScript
object literal: an existing key keeps its position and takes the new value. -/
def insertKV : List (String × JsonVal) → String → JsonVal → List (String × JsonVal)
  | [], k, v => [(k, v)]
  | (k0, v0) :: t, k, v =>
    if k0 == k then (k0, v) :: t else (k0, v0) :: insertKV t k v

mutual
/-- One JSON value starting at the head of the (whitespace-skipped) input.
Fueled; fuel decreases on every nested call, and the caller passes more fuel
than any accepting run can consume. -/
def parseValueF : Nat → List Char → Option (JsonVal × List Char)
  | 0, _ => none
  | n + 1, l =>
    match skipJWs l with
    | '"' :: t => (parseStringBody t).map (fun p => (.str (String.mk p.1), p.2))
    | '[' :: t =>
      (match skipJWs t with
       | ']' :: r => some (.arr [], r)
       | t' =>
         match parseElemsF n t' with
         | some (vs, r) => some (.arr vs, r)
         | none => none)
    | '{' :: t =>
      (match skipJWs t with
       | '}' :: r => some (.obj [], r)
       | t' =>
         match parseMembersF n t' with
         | some (ms, r) =>
           some (.obj (ms.foldl (fun acc kv => insertKV acc kv.1 kv.2) []), r)
         | none => none)
    | c :: t =>
      if c == 'n' then (stripKeyword ['u', 'l', 'l'] t).map (fun r => (.null, r))
      else if c == 't' then (stripKeyword ['r', 'u', 'e'] t).map (fun r => (.bool true, r))
      else if c == 'f' then (stripKeyword ['a', 'l', 's', 'e'] t).map (fun r => (.bool false, r))
      else if c == '-' || isDigitChar c then
        (parseJNumber (c :: t)).map (fun p => (.num p.1, p.2))
      else none
    | [] => none
/-- One or more comma-separated array elements up to the closing bracket. -/
def parseElemsF : Nat → List Char → Option (List JsonVal × List Char)
  | 0, _ => none
  | n + 1, l =>
    match parseValueF n l with
    | some (v, r) =>
      (match skipJWs r with
       | ',' :: r2 =>
         match parseElemsF n r2 with
         | some (vs, r3) => some (v :: vs, r3)
         | none => none
       | ']' :: r2 => some ([v], r2)
       | _ => none)
    | none => none
/-- One or more comma-separated object members up to the closing brace. -/
def parseMembersF : Nat → List Char → Option (List (String × JsonVal) × List Char)
  | 0, _ => none
  | n + 1, l =>
    match skipJWs l with
    | '"' :: t =>
      (match parseStringBody t with
       | some (kcs, r) =>
         (match skipJWs r with
          | ':' :: r2 =>
            (match parseValueF n r2 with
             | some (v, r3) =>
               (match skipJWs r3 with
                | ',' :: r4 =>
                  (match parseMembersF n r4 with
                   | some (ms, r5) => some ((String.mk kcs, v) :: ms, r5)
                   | none => none)
                | '}' :: r4 => some ([(String.mk kcs, v)], r4)
                | _ => none)
             | none => none)
          | _ => none)
       | none => none)
    | _ => none
end

/-- `JSON.parse(s)`: `some` on acceptance of the whole input, `none` where the
JavaScript original throws.  The fuel bound exceeds what any accepting run can
use, so `none` coincides with a parse error. -/
def jsonParse (s : String) : Option JsonVal :=
  match parseValueF (2 * s.length + 8) s.data with
  | some (v, r) => if (skipJWs r).isEmpty then some v else none
  | none => none

/-! ### The server's field-normalization functions (server.js) -/

/-- `parseGeometry` (lines 53-61): falsy input is no geometry; a string is
strict-JSON-parsed with a thrown error caught to `null`; the parsed-or-object
value is returned exactly when its `type` field is truthy. -/
def parseGeometry (raw : JsonVal) : Option JsonVal :=
  if truthy raw then
    match raw with
    | .str s =>
      match jsonParse s with
      | none => none
      | some g => if truthyOpt (objGet g "type") then some g else none
    | v => if truthyOpt (objGet v "type") then some v else none
  else none

/-- `pickAttachmentUrl` (lines 64-68): falsy input gives `null`; a string is
returned exactly when it has an `http(s)://` scheme (case-insensitive);
otherwise the `||` chain takes the first truthy of the large thumbnail URL,
the full thumbnail URL and the primary `url` field, else `null`. -/
def pickAttachmentUrl (att : JsonVal) : Option JsonVal :=
  if truthy att then
    match att with
    | .str s => if httpTest s then some (.str s) else none
    | v =>
      firstTruthy
        [chainGet v ["thumbnails", "large", "url"],
         chainGet v ["thumbnails", "full", "url"],
         objGet v "url"]
  else none

/-- JavaScript `Set` insertion (`urls.add`, and the spread of a `Set` built
from an array): keep first occurrence, preserve insertion order. -/
def setAdd (acc : List String) (x : String) : List String :=
  if x ∈ acc then acc else acc ++ [x]

/-- First character of a string, if any. -/
def headChar (s : String) : Option Char := s.data.head?

/-- Last character of a string, if any. -/
def lastChar (s : String) : Option Char := s.data.getLast?

/-- The recursive walker of `collectPhotoUrls` (lines 83-122).  Fueled because
the string case re-enters through `JSON.parse` output; every recursive call
decreases fuel, and the caller's `jsize`-based fuel dominates the walk's depth
(a parsed value is smaller than its string literal). -/
def pushAnyF : Nat → JsonVal → List String → List String
  | 0, _, acc => acc
  | n + 1, v, acc =>
    match v with
    | .null => acc
    | .bool _ => acc
    | .num _ => acc
    | .arr vs => vs.foldl (fun a x => pushAnyF n x a) acc
    | .str s0 =>
      let s := jsTrim s0
      let looksJson :=
        (headChar s == some '[' && lastChar s == some ']') ||
        (headChar s == some '{' && lastChar s == some '}')
      match (if looksJson then jsonParse s else none) with
      | some parsed => pushAnyF n parsed acc
      | none =>
        let parts := if s.data.contains ',' then splitByPred (· == ',') s else [s]
        parts.foldl (fun a p =>
          match pickAttachmentUrl (.str p) with
          | some m => setAdd a (normalizeUrl (jsToString m))
          | none => a) acc
    | .obj kvs =>
      if truthyOpt (objGet (.obj kvs) "url") || truthyOpt (objGet (.obj kvs) "thumbnails") then
        match pickAttachmentUrl (.obj kvs) with
        | some m => setAdd acc (normalizeUrl (jsToString m))
        | none => acc
      else (kvs.map (·.2)).foldl (fun a x => pushAnyF n x a) acc

/-- `collectPhotoUrls` (lines 80-126): flatten an arbitrary field value into
the insertion-ordered set of normalized URL strings. -/
def collectPhotoUrls (value : JsonVal) : List String :=
  pushAnyF (jsize value + 1) value []

/-- `pushClean` from `normalizeLeaders` (lines 132-139): stringify, trim,
strip edge brackets/quotes, collapse whitespace, silently drop record-ID
tokens and empty results. -/
def pushClean (v : JsonVal) (parts : List String) : List String :=
  match v with
  | .null => parts
  | _ =>
    let t := String.mk (collapseWsTrim (stripEdges (jsTrimL (jsToString v).data)))
    if recIdTest t then parts
    else if t.isEmpty then parts
    else parts ++ [t]

/-- `v.includes('","')`. -/
def hasQCQ : List Char → Bool
  | '"' :: ',' :: '"' :: _ => true
  | _ :: t => hasQCQ t
  | [] => false

/-- The `/[;,]/` splitter used by `normalizeLeaders`' string branch. -/
def splitSemiComma (s : String) : List String :=
  splitByPred (fun c => c == ';' || c == ',') s

/-- `normalizeLeaders` (lines 129-172): normalize a leaders field of arbitrary
shape into one comma-and-space-joined string of unique cleaned tokens. -/
def normalizeLeaders (value : JsonVal) : String :=
  let parts : List String :=
    match value with
    | .arr vs =>
      vs.foldl (fun acc v =>
        match v with
        | .obj kvs =>
          match kvs.find? (fun p => p.1 == "name") with
          | some p => pushClean p.2 acc
          | none => pushClean v acc
        | .str s =>
          if hasQCQ s.data then
            (splitQCQ s).foldl (fun a x => pushClean (.str (stripQuoteRuns x)) a) acc
          else pushClean v acc
        | _ => pushClean v acc) []
    | .str s0 =>
      let text := jsTrim s0
      if headChar text == some '[' && lastChar text == some ']' then
        match jsonParse text with
        | some (.arr xs) => xs.foldl (fun a x => pushClean x a) []
        | some other => pushClean other []
        | none => (splitSemiComma text).foldl (fun a x => pushClean (.str x) a) []
      else (splitSemiComma text).foldl (fun a x => pushClean (.str x) a) []
    | .null => []
    | v => pushClean v []
  String.intercalate ", " (parts.foldl setAdd [])

/-- The walker of `normalizeTextField` (lines 179-198).  Fueled for the
nested-container recursion; `jsize`-based fuel dominates its depth. -/
def pushTextF : Nat → JsonVal → List String → List String
  | 0, _, out => out
  | n + 1, v, out =>
    match v with
    | .null => out
    | .arr vs => vs.foldl (fun a x => pushTextF n x a) out
    | .obj kvs =>
      match firstNonNull
        [objGet (.obj kvs) "email", objGet (.obj kvs) "text",
         objGet (.obj kvs) "name", objGet (.obj kvs) "value"] with
      | some cand =>
        let t := jsTrim (jsToString cand)
        if t.isEmpty then out else out ++ [t]
      | none => (kvs.map (·.2)).foldl (fun a x => pushTextF n x a) out
    | prim =>
      let t := jsTrim (jsToString prim)
      if t.isEmpty then out else out ++ [t]

/-- `normalizeTextField` (lines 175-202). -/
def normalizeTextField (value : JsonVal) : String :=
  match value with
  | .null => ""
  | v => String.intercalate ", " ((pushTextF (jsize v + 1) v []).foldl setAdd [])

/-! ### The image-proxy endpoint (lines 216-262) -/

/-- Binary digit? -/
def isBitChar (c : Char) : Bool := c == '0' || c == '1'

/-- Octal digit? -/
def isOctChar (c : Char) : Bool := '0' ≤ c && c ≤ '7'

/-- Hex digit? -/
def isHexChar (c : Char) : Bool := (hexVal c).isSome

/-- Value of a hex digit list. -/
def hexToNat (ds : List Char) : Nat :=
  ds.foldl (fun acc c => acc * 16 + (hexVal c).getD 0) 0

/-- Value of a digit list in base `b`. -/
def baseToNat (b : Nat) (ds : List Char) : Nat :=
  ds.foldl (fun acc c => acc * b + (c.toNat - '0'.toNat)) 0

/-- The decimal arm of `Number(s)` combined with
`Number.isInteger(idx) && idx >= 0`: `some idx` exactly when the trimmed text
denotes a non-negative integer.  Arithmetic is exact where IEEE doubles would
round; the two agree on every index a route can realistically carry. -/
def decIndex (l : List Char) : Option Nat :=
  let signed : Bool × List Char := match l with
    | '-' :: t => (true, t)
    | '+' :: t => (false, t)
    | _ => (false, l)
  let neg := signed.1
  let l1 := signed.2
  if l1 == "Infinity".data then none
  else
    let ids := l1.takeWhile isDigitChar
    let l2 := l1.dropWhile isDigitChar
    let fracRes : List Char × List Char := match l2 with
      | '.' :: t => (t.takeWhile isDigitChar, t.dropWhile isDigitChar)
      | _ => ([], l2)
    let fds := fracRes.1
    let l3 := fracRes.2
    if ids.isEmpty && fds.isEmpty then none
    else
      let expRes : Option Int := match l3 with
        | e :: t =>
          if e == 'e' || e == 'E' then
            let es : Int × List Char := match t with
              | '+' :: t2 => (1, t2)
              | '-' :: t2 => (-1, t2)
              | _ => (1, t)
            match es.2.takeWhile isDigitChar with
            | [] => none
            | ds =>
              if (es.2.dropWhile isDigitChar).isEmpty then
                some (es.1 * (digitsToNat ds : Int))
              else none
          else none
        | [] => some 0
      match expRes with
      | none => none
      | some ex =>
        let d := digitsToNat (ids ++ fds)
        let scale : Int := ex - (fds.length : Int)
        if d == 0 then some 0
        else if neg then none
        else if 0 ≤ scale then some (d * 10 ^ scale.toNat)
        else
          let p := 10 ^ (-scale).toNat
          if d % p == 0 then some (d / p) else none

/-- `Number(index)` followed by the handler's guard
`!Number.isInteger(idx) || idx < 0` (line 238): `some idx` when the guard
passes, `none` when the handler answers 400.  `Number` trims whitespace and
maps the empty remainder to `0`; `0x`/`0o`/`0b` literals are unsigned. -/
def parseIndex (s : String) : Option Nat :=
  let t := jsTrimL s.data
  if t.isEmpty then some 0
  else
    match t with
    | '0' :: x :: rest =>
      if x == 'x' || x == 'X' then
        if !rest.isEmpty && rest.all isHexChar then some (hexToNat rest) else none
      else if x == 'b' || x == 'B' then
        if !rest.isEmpty && rest.all isBitChar then some (baseToNat 2 rest) else none
      else if x == 'o' || x == 'O' then
        if !rest.isEmpty && rest.all isOctChar then some (baseToNat 8 rest) else none
      else decIndex t
    | _ => decIndex t

/-- One entry of the ephemeral URL cache. -/
structure CacheEntry where
  url : String
  expiresAt : Nat
deriving DecidableEq

/-- The cache's map type: association list with unique keys, insertion order
preserved, mirroring a JavaScript `Map`. -/
abbrev CacheMap := List (String × CacheEntry)

/-- `CACHE_TTL_MS` (line 218). -/
def CACHE_TTL_MS : Nat := 8 * 60 * 1000

/-- `Map.prototype.set`: existing key keeps its position, takes the new
entry; a new key is appended. -/
def cacheSet : CacheMap → String → CacheEntry → CacheMap
  | [], k, e => [(k, e)]
  | (k0, e0) :: t, k, e =>
    if k0 == k then (k0, e) :: t else (k0, e0) :: cacheSet t k e

/-- `getCached` (lines 220-228): a hit after expiry is lazily deleted and
reported as a miss.  Returns the looked-up URL and the possibly-updated map. -/
def getCached (m : CacheMap) (key : String) (now : Nat) : Option String × CacheMap :=
  match List.find? (fun p => p.1 == key) m with
  | none => (none, m)
  | some p =>
    if now > p.2.expiresAt then (none, List.filter (fun q => !(q.1 == key)) m)
    else (some p.2.url, m)

/-- `setCached` (lines 229-231). -/
def setCached (m : CacheMap) (key : String) (url : String) (now : Nat) : CacheMap :=
  cacheSet m key ⟨url, now + CACHE_TTL_MS⟩

/-- Outcome of one image-proxy request. -/
inductive ImgResult where
  | badRequest
  | redirect (url : String)
  | notFound (msg : String)
  | serverError
deriving DecidableEq

/-- Did the handler answer 404? -/
def ImgResult.isNotFound : ImgResult → Bool
  | .notFound _ => true
  | _ => false

/-- `Array.isArray(rec.fields?.Photo) ? rec.fields.Photo : []` (line 248). -/
def attachmentsOf (rec : JsonVal) : List JsonVal :=
  match chainGet rec ["fields", "Photo"] with
  | some (.arr xs) => xs
  | _ => []

/-- The `/img/:recordId/:index` handler (lines 234-262) as a function of the
request parameters, the wall clock, the cache state, and the outcome of the
(at most one) upstream fetch: `none` models `fetchRecordById` throwing, which
the handler maps to 500.  Result: the response, the cache after the request,
and whether the upstream fetch was performed. -/
def imgHandler (recordId index : String) (now : Nat) (cache : CacheMap)
    (fetchResult : Option JsonVal) : ImgResult × CacheMap × Bool :=
  match parseIndex index with
  | none => (.badRequest, cache, false)
  | some idx =>
    let key := "Photo:" ++ recordId ++ ":" ++ toString idx
    match getCached cache key now with
    | (some url, c1) => (.redirect url, c1, false)
    | (none, c1) =>
      match fetchResult with
      | none => (.serverError, c1, true)
      | some rec =>
        let attachments : List JsonVal := attachmentsOf rec
        match attachments.get? idx with
        | none => (.notFound "Photo not found", c1, true)
        | some att =>
          if truthy att then
            match pickAttachmentUrl att with
            | some u =>
              let url := jsToString u
              (.redirect url, setCached c1 key url now, true)
            | none => (.notFound "Photo URL missing", c1, true)
          else (.notFound "Photo not found", c1, true)

/-! ### The `/networks.geojson` feature builder (lines 296-382) -/

/-- One upstream record as the collection handler consumes it. -/
structure NetRecord where
  id : String
  fields : JsonVal

/-- Field read against `f = r.fields || {}` semantics: a missing key is
`undefined`, embedded as `.null`. -/
def getField (f : JsonVal) (k : String) : JsonVal := (objGet f k).getD .null

/-- One output Feature's properties (lines 356-373), geometry included. -/
structure Feature where
  geometry : JsonVal
  id : String
  name : JsonVal
  leaders : String
  contact_email : String
  status : String
  county : String
  tags : String
  number_of_churches : JsonVal
  photo1 : String
  photo2 : String
  photo3 : String
  photo4 : String
  photo5 : String
  photo6 : String
  photo_count : Nat
  image1 : String
  image2 : String
  image3 : String
  image4 : String
  image5 : String
  image6 : String
  image_count : Nat

/-- The per-record mode test (lines 311-315 / 327-331): is the field a
non-empty array whose first element is object-typed (`typeof` counts arrays
and `null` as objects) and exposes a truthy `url` or `thumbnails`? -/
def isAttachmentArray (field : JsonVal) : Bool :=
  match field with
  | .arr (v0 :: _) =>
    (match v0 with
     | .obj _ => true
     | .arr _ => true
     | .null => true
     | _ => false) &&
    (truthyOpt (objGet v0 "url") || truthyOpt (objGet v0 "thumbnails"))
  | _ => false

/-- The URL list feeding one six-slot group (lines 317-322 / 333-338):
attachment arrays become up-to-six proxy URLs by index; anything else goes
through `collectPhotoUrls`, a second `normalizeUrl` pass, `Set`
de-duplication, and `slice(0, 6)`. -/
def slotUrls (baseUrl route rid : String) (field : JsonVal) : List String :=
  if isAttachmentArray field then
    match field with
    | .arr vs =>
      (List.range (min vs.length 6)).map
        (fun i => baseUrl ++ "/" ++ route ++ "/" ++ rid ++ "/" ++ toString i)
    | _ => []
  else
    (((collectPhotoUrls field).map normalizeUrl).foldl setAdd []).take 6

/-- `photoUrls.filter(Boolean).length`. -/
def countNonEmpty (l : List String) : Nat :=
  (l.filter (fun s => !s.isEmpty)).length

/-- Destructuring with `''` defaults: the `i`-th slot or the empty string. -/
def nthSlot (l : List String) (i : Nat) : String := (l.get? i).getD ""

/-- `const f = r.fields || {}` (line 302). -/
def effFields (r : NetRecord) : JsonVal :=
  if truthy r.fields then r.fields else .obj []

/-- The body of `networkRecords.map` (lines 301-374): `none` is the `null`
that `.filter(Boolean)` later removes. -/
def buildFeature (baseUrl : String) (r : NetRecord) : Option Feature :=
  let f := effFields r
  match parseGeometry (getField f "Polygon") with
  | none => none
  | some geometry =>
    let photoUrls := slotUrls baseUrl "img" r.id (getField f "Photo")
    let imageUrls := slotUrls baseUrl "image" r.id (getField f "Image")
    some
      { geometry
        id := r.id
        name := (firstNonNull [objGet f "Network Name"]).getD (.str "")
        leaders := normalizeLeaders (getField f "Network Leaders Names")
        contact_email := normalizeTextField
          ((firstNonNull
            [objGet f "contact email", objGet f "Contact Email",
             objGet f "Contact email"]).getD .null)
        status := normalizeTextField (getField f "Status")
        county := normalizeTextField (getField f "County")
        tags := normalizeTextField (getField f "Tags")
        number_of_churches :=
          (firstNonNull [objGet f "Number of Churches"]).getD (.str "")
        photo1 := nthSlot photoUrls 0
        photo2 := nthSlot photoUrls 1
        photo3 := nthSlot photoUrls 2
        photo4 := nthSlot photoUrls 3
        photo5 := nthSlot photoUrls 4
        photo6 := nthSlot photoUrls 5
        photo_count := countNonEmpty photoUrls
        image1 := nthSlot imageUrls 0
        image2 := nthSlot imageUrls 1
        image3 := nthSlot imageUrls 2
        image4 := nthSlot imageUrls 3
        image5 := nthSlot imageUrls 4
        image6 := nthSlot imageUrls 5
        image_count := countNonEmpty imageUrls }

/-- The features array of the response (`map` then `filter(Boolean)`). -/
def featuresOf (baseUrl : String) (recs : List NetRecord) : List Feature :=
  recs.filterMap (buildFeature baseUrl)

/-! ### Claim-side definitions (phrased from the specification's words, to be
compared against the source-derived functions above) -/

/-- The "parsed-or-object value" of the geometry claim: a string goes through
the strict JSON parse, anything else stands for itself. -/
def parsedOrSelf : JsonVal → Option JsonVal
  | .str s => jsonParse s
  | v => some v

/-- The claim's characterization of geometry rejection: the value is
absent/falsy, or a string that fails strict JSON parse, or the
parsed-or-object value lacks a truthy `type` discriminator. -/
def geomExcludedClaim (raw : JsonVal) : Prop :=
  truthy raw = false ∨
  (∃ s, raw = JsonVal.str s ∧ jsonParse s = none) ∨
  (∃ g, parsedOrSelf raw = some g ∧ truthyOpt (objGet g "type") = false)

/-- The claim's resolution order for an object-shaped attachment: the large
thumbnail URL when usable, else the full thumbnail URL, else the primary
`url` field, else none. -/
def claimObjPick (v : JsonVal) : Option JsonVal :=
  if truthyOpt (chainGet v ["thumbnails", "large", "url"]) then
    chainGet v ["thumbnails", "large", "url"]
  else if truthyOpt (chainGet v ["thumbnails", "full", "url"]) then
    chainGet v ["thumbnails", "full", "url"]
  else if truthyOpt (objGet v "url") then objGet v "url"
  else none

/-- Step (c) exactly as the claim words it: collapse every run of two or more
slashes not immediately preceded by a colon — including a run at the very
start of the string, which the source regex `([^:])\/{2,}` can never match
because it must consume a preceding character. -/
def claimStepC (l : List Char) : List Char :=
  match l with
  | '/' :: '/' :: _ =>
    '/' :: collapseSlashesF ((l.dropWhile (· == '/')).length + 1) (l.dropWhile (· == '/'))
  | _ => collapseSlashesF (l.length + 1) l

/-- Step (a) exactly as the claim words it: strip a leading **run** of the
literal `%20` token.  The source's `/^%20+/` does something else — its `+`
binds to the `0` and the replace is non-global, so only one `%2`-plus-zeros
match goes. -/
def claimStrip20 : List Char → List Char
  | '%' :: '2' :: '0' :: rest => claimStrip20 rest
  | l => l

/-- `normalizeUrl` as claim C5 words it: steps (a), (b), (c) only, in that
order, with no surrounding `trim()` and with (a) reading `%20` as a
repeatable token. -/
def specNormalizeUrlClaim (s : String) : String :=
  String.mk (claimStepC (protoFix (stripLeadWs (claimStrip20 s.data))))

/-- The amended step list: `trim()` first, then (a) strip one leading match
of `%2` followed by a run of zeros, and any further leading whitespace, then
(b) collapse the scheme's slashes to two, then (c) collapse runs of two or
more slashes that follow a non-colon character to one. -/
def specNormalizeUrlAmended (s : String) : String :=
  let t := jsTrimL s.data
  let a := stripLeadWs (strip20 t)
  let b := protoFix a
  String.mk (collapseSlashesF (b.length + 1) b)

/-! ### Concrete sample data -/

/-- A record with a valid polygon, an attachment-array photo field with two
items, and leaders given as linked-record objects. -/
def sampleGood : NetRecord :=
  ⟨"recY",
   .obj
     [("Polygon", .str "\x7b\"type\":\"Polygon\"\x7d"),
      ("Network Name", .str "Net"),
      ("Network Leaders Names", .arr [.obj [("name", .str "A")], .obj [("name", .str "B")]]),
      ("Photo", .arr [.obj [("url", .str "http://u/1")], .obj [("url", .str "http://u/2")]])]⟩

/-- A record whose polygon field is the string `"not json"`. -/
def sampleBadPoly : NetRecord :=
  ⟨"recB", .obj [("Polygon", .str "not json")]⟩

/-- A record whose photo field resolves to seven non-empty URLs plus one
whitespace-only `url` value that normalizes to the empty string; the leading
plain string keeps it out of attachment-array mode. -/
def overPhotoRec : NetRecord :=
  ⟨"recX",
   .obj
     [("Polygon", .str "\x7b\"type\":\"Polygon\"\x7d"),
      ("Photo",
       .arr
         [.str "x", .obj [("url", .str " ")],
          .obj [("url", .str "http://a.com/1")], .obj [("url", .str "http://a.com/2")],
          .obj [("url", .str "http://a.com/3")], .obj [("url", .str "http://a.com/4")],
          .obj [("url", .str "http://a.com/5")], .obj [("url", .str "http://a.com/6")],
          .obj [("url", .str "http://a.com/7")]])]⟩

/-- A fetched record (as the image proxy sees it) whose `Photo` field is
absent, so its attachment array is empty. -/
def emptyPhotoRec : JsonVal :=
  .obj [("id", .str "r1"), ("fields", .obj [])]

/-- A warm cache holding a still-fresh URL for `Photo:r1:0`. -/
def warmCache : CacheMap := [("Photo:r1:0", ⟨"http://cached", 100⟩)]

/-! ### Helper lemmas -/

/-- String coercion is the identity on strings. -/
theorem jsToString_str (s : String) : jsToString (.str s) = s := by
  simp [jsToString, jsize, jsToStringFuel]

/-- `Set` insertion only ever appends. -/
theorem setAdd_extend (a : List String) (x : String) : ∃ t, setAdd a x = a ++ t := by
  unfold setAdd
  by_cases h : x ∈ a
  · exact ⟨[], by simp [h]⟩
  · exact ⟨[x], by simp [h]⟩

/-- A fold whose step only appends only appends. -/
theorem foldl_extend {α : Type} (g : List String → α → List String)
    (hg : ∀ a x, ∃ t, g a x = a ++ t) :
    ∀ (l : List α) (a : List String), ∃ t, l.foldl g a = a ++ t := by
  intro l
  induction l with
  | nil => exact fun a => ⟨[], by simp⟩
  | cons x xs ih =>
    intro a
    obtain ⟨t1, h1⟩ := hg a x
    obtain ⟨t2, h2⟩ := ih (g a x)
    exact ⟨t1 ++ t2, by rw [List.foldl_cons, h2, h1, List.append_assoc]⟩

/-- `Set` insertion preserves distinctness. -/
theorem setAdd_nodup (a : List String) (x : String) (h : a.Nodup) :
    (setAdd a x).Nodup := by
  unfold setAdd
  by_cases hx : x ∈ a
  · simpa [hx]
  · simpa [hx, List.nodup_append] using h

/-- A fold whose step preserves distinctness preserves distinctness. -/
theorem foldl_nodup {α : Type} (g : List String → α → List String)
    (hg : ∀ a x, a.Nodup → (g a x).Nodup) :
    ∀ (l : List α) (a : List String), a.Nodup → (l.foldl g a).Nodup := by
  intro l
  induction l with
  | nil => exact fun a h => h
  | cons x xs ih => exact fun a h => ih (g a x) (hg a x h)

/-- The `collectPhotoUrls` walker only appends to its accumulator. -/
theorem pushAnyF_extend :
    ∀ (n : Nat) (v : JsonVal) (acc : List String), ∃ t, pushAnyF n v acc = acc ++ t := by
  intro n
  induction n with
  | zero => exact fun v acc => ⟨[], by simp [pushAnyF]⟩
  | succ n ih =>
    intro v acc
    cases v with
    | null => exact ⟨[], by simp [pushAnyF]⟩
    | bool b => exact ⟨[], by simp [pushAnyF]⟩
    | num q => exact ⟨[], by simp [pushAnyF]⟩
    | arr vs =>
      simpa [pushAnyF] using foldl_extend _ (fun a x => ih x a) vs acc
    | str s0 =>
      simp only [pushAnyF]
      split
      · exact ih _ acc
      · refine foldl_extend _ (fun a p => ?_) _ acc
        split
        · exact setAdd_extend a _
        · exact ⟨[], by simp⟩
    | obj kvs =>
      simp only [pushAnyF]
      split
      · split
        · exact setAdd_extend acc _
        · exact ⟨[], by simp⟩
      · exact foldl_extend _ (fun a x => ih x a) _ acc

/-- The `collectPhotoUrls` walker preserves distinctness of the accumulator. -/
theorem pushAnyF_nodup :
    ∀ (n : Nat) (v : JsonVal) (acc : List String), acc.Nodup → (pushAnyF n v acc).Nodup := by
  intro n
  induction n with
  | zero => intro v acc h; simpa [pushAnyF] using h
  | succ n ih =>
    intro v acc h
    cases v with
    | null => simpa [pushAnyF] using h
    | bool b => simpa [pushAnyF] using h
    | num q => simpa [pushAnyF] using h
    | arr vs =>
      simpa [pushAnyF] using foldl_nodup _ (fun a x ha => ih x a ha) vs acc h
    | str s0 =>
      simp only [pushAnyF]
      split
      · exact ih _ acc h
      · refine foldl_nodup _ (fun a p ha => ?_) _ acc h
        split
        · exact setAdd_nodup a _ ha
        · exact ha
    | obj kvs =>
      simp only [pushAnyF]
      split
      · split
        · exact setAdd_nodup acc _ h
        · exact h
      · exact foldl_nodup _ (fun a x ha => ih x a ha) _ acc h

/-- Folding `Set` insertion over fresh distinct elements appends them all. -/
theorem foldl_setAdd_of_nodup :
    ∀ (l acc : List String), l.Nodup → (∀ x ∈ l, x ∉ acc) → l.foldl setAdd acc = acc ++ l := by
  intro l
  induction l with
  | nil => intro acc _ _; simp
  | cons x xs ih =>
    intro acc hnd hfresh
    have hx : x ∉ acc := hfresh x (by simp)
    have hstep : setAdd acc x = acc ++ [x] := by simp [setAdd, hx]
    have hrest : ∀ y ∈ xs, y ∉ acc ++ [x] := by
      intro y hy
      have hya : y ∉ acc := hfresh y (by simp [hy])
      have hyx : y ≠ x := by
        intro hcontr
        exact (List.nodup_cons.mp hnd).1 (hcontr ▸ hy)
      simp [hya, hyx]
    calc (x :: xs).foldl setAdd acc = xs.foldl setAdd (setAdd acc x) := by simp
      _ = xs.foldl setAdd (acc ++ [x]) := by rw [hstep]
      _ = (acc ++ [x]) ++ xs := ih (acc ++ [x]) (List.nodup_cons.mp hnd).2 hrest
      _ = acc ++ x :: xs := by simp

/-- Mapping a function that fixes every element is the identity. -/
theorem map_fix_id (f : String → String) :
    ∀ (l : List String), (∀ u ∈ l, f u = u) → l.map f = l := by
  intro l
  induction l with
  | nil => intro _; rfl
  | cons x xs ih =>
    intro h
    simp only [List.map_cons, h x (by simp), ih (fun u hu => h u (by simp [hu]))]

/-- Appending empty-string padding does not change the non-empty count. -/
theorem countNonEmpty_append_pad (l : List String) (k : Nat) :
    countNonEmpty (l ++ List.replicate k "") = countNonEmpty l := by
  have hrep : ∀ m : Nat,
      List.filter (fun s => !s.isEmpty) (List.replicate m ("" : String)) = [] := by
    intro m
    induction m with
    | zero => rfl
    | succ m ih => rw [List.replicate_succ, List.filter_cons, if_neg (by decide)]; exact ih
  unfold countNonEmpty
  rw [List.filter_append, hrep, List.append_nil]

/-- A list of at most six entries, read through the six destructured slots,
is itself followed by empty-string padding. -/
theorem pads_eq :
    ∀ (l : List String), l.length ≤ 6 →
      [nthSlot l 0, nthSlot l 1, nthSlot l 2, nthSlot l 3, nthSlot l 4, nthSlot l 5] =
        l ++ List.replicate (6 - l.length) "" := by
  intro l h
  match l, h with
  | [], _ => rfl
  | [a], _ => rfl
  | [a, b], _ => rfl
  | [a, b, c], _ => rfl
  | [a, b, c, d], _ => rfl
  | [a, b, c, d, e], _ => rfl
  | [a, b, c, d, e, f], _ => rfl
  | a :: b :: c :: d :: e :: f :: g :: t, h =>
    simp only [List.length_cons] at h
    omega

/-- The slot source never exceeds six entries. -/
theorem slotUrls_length_le (base route rid : String) (field : JsonVal) :
    (slotUrls base route rid field).length ≤ 6 := by
  unfold slotUrls
  split
  · cases field <;> simp [Nat.min_le_right]
  · simp only [List.length_take]
    exact Nat.min_le_left _ _

/-- Reading a slot beyond the source list yields the empty string. -/
theorem nthSlot_past_end (l : List String) (i : Nat) (h : l.length ≤ i) :
    nthSlot l i = "" := by
  simp [nthSlot, List.getElem?_eq_none h]

/-! ### Claim theorems -/

/-- C6: `collectPhotoUrls` yields the same deduplicated single-element list
for the duplicate URL expressed as a two-element array and as a JSON-encoded
string. -/
theorem collectPhotoUrls_dedup_c6 :
    collectPhotoUrls (.arr [.str "http://a.com/x.png", .str "http://a.com/x.png"]) =
      ["http://a.com/x.png"] ∧
    collectPhotoUrls (.str "[\"http://a.com/x.png\",\"http://a.com/x.png\"]") =
      ["http://a.com/x.png"] := by
  constructor <;> decide

/-- C3: `collectPhotoUrls` is total (a total function by construction here;
its walker only ever appends), and unrecognized shapes — numbers, booleans,
null, non-URL strings, unparseable JSON-looking strings, nested arrays of
such — contribute no URLs. -/
theorem collectPhotoUrls_total_c3 :
    (∀ q : Rat, collectPhotoUrls (.num q) = []) ∧
    (∀ b : Bool, collectPhotoUrls (.bool b) = []) ∧
    collectPhotoUrls .null = [] ∧
    collectPhotoUrls (.str "not a url") = [] ∧
    collectPhotoUrls (.str "[oops]") = [] ∧
    (∀ (q : Rat) (b : Bool), collectPhotoUrls (.arr [.arr [.num q, .bool b], .null]) = []) ∧
    (∀ (n : Nat) (v : JsonVal) (acc : List String), ∃ t, pushAnyF n v acc = acc ++ t) :=
  ⟨fun _ => rfl, fun _ => rfl, rfl, by decide, by decide, fun _ _ => rfl, pushAnyF_extend⟩

/-- C4: `pickAttachmentUrl` resolves falsy input to none, a string to itself
exactly when it carries a case-insensitive `http(s)://` scheme, and an object
through the large-thumbnail / full-thumbnail / primary-url preference order. -/
theorem pickAttachmentUrl_order_c4 :
    (∀ att, truthy att = false → pickAttachmentUrl att = none) ∧
    (∀ s : String, pickAttachmentUrl (.str s) = if httpTest s then some (.str s) else none) ∧
    (∀ kvs, pickAttachmentUrl (.obj kvs) = claimObjPick (.obj kvs)) := by
  refine ⟨fun att h => by simp [pickAttachmentUrl, h], fun s => ?_, fun kvs => rfl⟩
  by_cases hs : s = ""
  · subst hs; rfl
  · have hEmp : s.isEmpty = false := by
      rw [Bool.eq_false_iff]
      intro hc
      exact hs ((String.isEmpty_iff s).mp hc)
    simp [pickAttachmentUrl, truthy, hEmp]

/-- C4 witness: the falsy clause at the concrete input `null`. -/
theorem pickAttachmentUrl_order_c4_w : pickAttachmentUrl .null = none :=
  pickAttachmentUrl_order_c4.1 .null rfl

/-- C5 counterexample: the claim's literal step list diverges from the
function twice over.  On `"//a//b "` the function trims the trailing space
and leaves the leading slash run (its collapse regex must consume a preceding
character), where the claimed steps keep the space and collapse the leading
run.  On `"%20%20http://x"` the function strips only one `%20` (in `/^%20+/`
the `+` binds to the `0` and the replace is non-global), where the claimed
"leading run of the literal %20 token" strips both. -/
theorem normalizeUrl_steps_cex_c5 :
    normalizeUrl "//a//b " = "//a/b" ∧
    specNormalizeUrlClaim "//a//b " = "/a/b " ∧
    normalizeUrl "//a//b " ≠ specNormalizeUrlClaim "//a//b " ∧
    normalizeUrl "%20%20http://x" = "%20http://x" ∧
    specNormalizeUrlClaim "%20%20http://x" = "http://x" ∧
    normalizeUrl "%20%20http://x" ≠ specNormalizeUrlClaim "%20%20http://x" := by decide

/-- C5 amended: `normalizeUrl` trims surrounding whitespace first, then
applies (a) stripping of one leading `%2`-plus-zero-run match followed by
leading-whitespace stripping, (b) scheme slash collapse to two, (c) collapse
of slash runs that follow a non-colon character; the claim's concrete example
holds — as do the `%20%20`-keeps-one and `%200`-loses-its-zeros readings of
step (a) — and the function is total on strings. -/
theorem normalizeUrl_steps_c5 :
    (∀ u : String, normalizeUrl u = specNormalizeUrlAmended u) ∧
    normalizeUrl "https:////a.com//b///c.png" = "https://a.com/b/c.png" ∧
    normalizeUrl "%20%20x" = "%20x" ∧
    normalizeUrl "%200x" = "x" :=
  ⟨fun _ => rfl, by decide, by decide, by decide⟩

/-- C7 counterexample: `"rec1234567890AB"` has only twelve characters after
`rec`, so the fourteen-character record-ID pattern does not match and the
token is kept, not dropped. -/
theorem normalizeLeaders_recId_cex_c7 :
    normalizeLeaders (.arr [.str "rec1234567890AB", .str "Jane Doe"]) =
      "rec1234567890AB, Jane Doe" ∧
    normalizeLeaders (.arr [.str "rec1234567890AB", .str "Jane Doe"]) ≠ "Jane Doe" := by
  decide

/-- C7 amended: `normalizeLeaders` drops exactly the tokens matching `rec`
plus fourteen alphanumerics: a full-length record ID in the example array is
discarded, and any string whose cleaned form matches the pattern contributes
nothing. -/
theorem normalizeLeaders_recId_c7 :
    normalizeLeaders (.arr [.str "rec12345678901234", .str "Jane Doe"]) = "Jane Doe" ∧
    (∀ (s : String) (parts : List String),
      recIdTest (String.mk (collapseWsTrim (stripEdges (jsTrimL s.data)))) = true →
      pushClean (.str s) parts = parts) := by
  refine ⟨by decide, fun s parts h => ?_⟩
  simp [pushClean, jsToString_str, h]

/-- C7 witness: the amended drop clause at a concrete full-length record ID. -/
theorem normalizeLeaders_recId_c7_w : pushClean (.str "rec12345678901234") [] = [] :=
  normalizeLeaders_recId_c7.2 "rec12345678901234" [] (by decide)

/-- C8 counterexample: a token opening with two `[` characters keeps one of
them — the `^` alternative of the stripping regex matches a single `[` — so
the claimed full removal of leading bracket runs fails. -/
theorem pushClean_strip_cex_c8 :
    normalizeLeaders (.arr [.str "[[Jane Doe"]) = "[Jane Doe" ∧
    normalizeLeaders (.arr [.str "[[Jane Doe"]) ≠ "Jane Doe" := by decide

/-- C8 amended: the cleanup strips at most one leading `[` or one maximal
leading run of a single repeated character among `]`, `"`, `'`, and the same
on the trailing side; internal whitespace runs collapse to one space; a token
that cleans to the empty string (or to a record ID) is discarded, so every
pushed token is non-empty and non-record-ID. -/
theorem pushClean_strip_c8 :
    String.mk (stripEdges "[[x".data) = "[x" ∧
    String.mk (stripEdges "]]x\"\"".data) = "x" ∧
    String.mk (stripEdges "[x]".data) = "x" ∧
    String.mk (collapseWsTrim "a   b".data) = "a b" ∧
    (∀ (s : String) (parts : List String),
      pushClean (.str s) parts = parts ∨
      ∃ t, pushClean (.str s) parts = parts ++ [t] ∧ t ≠ "" ∧ recIdTest t = false) := by
  refine ⟨by decide, by decide, by decide, by decide, fun s parts => ?_⟩
  by_cases h1 : recIdTest (String.mk (collapseWsTrim (stripEdges (jsTrimL s.data)))) = true
  · left; simp [pushClean, jsToString_str, h1]
  · by_cases h2 : (String.mk (collapseWsTrim (stripEdges (jsTrimL s.data)))).isEmpty = true
    · left; simp [pushClean, jsToString_str, h1, h2]
    · right
      refine ⟨String.mk (collapseWsTrim (stripEdges (jsTrimL s.data))),
        by simp [pushClean, jsToString_str, h1, h2], ?_, ?_⟩
      · intro hc
        exact h2 (by rw [hc]; rfl)
      · simpa using h1

/-- C10 counterexample: an element of `collectPhotoUrls` output need not be a
`normalizeUrl` fixed point — stripping the leading `%20` can re-expose
another — so the Feature Builder's re-normalization is not the identity
here. -/
theorem collectPhotoUrls_norm_cex_c10 :
    collectPhotoUrls (.obj [("url", .str "%20 %20http://a.com")]) = ["%20http://a.com"] ∧
    normalizeUrl "%20http://a.com" = "http://a.com" ∧
    normalizeUrl "%20http://a.com" ≠ "%20http://a.com" ∧
    (["%20http://a.com"].map normalizeUrl).foldl setAdd [] = ["http://a.com"] := by
  decide

/-- C10 amended: `collectPhotoUrls` output never contains duplicates, and the
Feature Builder's re-application of `normalizeUrl` followed by set-based
de-duplication is the identity on any duplicate-free list of `normalizeUrl`
fixed points (but not on every output, per the counterexample). -/
theorem collectPhotoUrls_norm_c10 :
    (∀ v, (collectPhotoUrls v).Nodup) ∧
    (∀ l : List String, l.Nodup → (∀ u ∈ l, normalizeUrl u = u) →
      (l.map normalizeUrl).foldl setAdd [] = l) := by
  constructor
  · intro v
    exact pushAnyF_nodup _ v [] (by simp)
  · intro l hnd hfix
    rw [map_fix_id normalizeUrl l hfix]
    simpa using foldl_setAdd_of_nodup l [] hnd (by simp)

/-- C10 witness: the identity clause at a concrete singleton list. -/
theorem collectPhotoUrls_norm_c10_w :
    ((["http://a.com"].map normalizeUrl).foldl setAdd []) = ["http://a.com"] :=
  collectPhotoUrls_norm_c10.2 ["http://a.com"] (by decide) (by decide)

/-- A non-empty string is truthy. -/
theorem truthy_str_of_ne (s : String) (hs : s ≠ "") : truthy (.str s) = true := by
  have hEmp : s.isEmpty = false := by
    rw [Bool.eq_false_iff]
    intro hc
    exact hs ((String.isEmpty_iff s).mp hc)
  simp [truthy, hEmp]

/-- C1: a record contributes no Feature exactly when `parseGeometry` rejects
its `Polygon` field; rejection happens exactly when the field is falsy, a
string failing strict JSON parse, or a parsed-or-object value without a
truthy `type` tag; concretely, the `"not json"` record yields no Feature
while the rest of the collection is still returned. -/
theorem geometry_gate_c1 :
    (∀ (base : String) (r : NetRecord),
      buildFeature base r = none ↔ parseGeometry (getField (effFields r) "Polygon") = none) ∧
    (∀ raw, parseGeometry raw = none ↔ geomExcludedClaim raw) ∧
    (featuresOf "http://h" [sampleGood, sampleBadPoly]).map (·.id) = ["recY"] ∧
    getField (effFields sampleBadPoly) "Polygon" = .str "not json" ∧
    parseGeometry (.str "not json") = none := by
  refine ⟨fun base r => ?_, fun raw => ?_, by decide, rfl, rfl⟩
  · cases hg : parseGeometry (getField (effFields r) "Polygon") with
    | none => simp [buildFeature, hg]
    | some g => simp [buildFeature, hg]
  · cases raw with
    | null => simp [parseGeometry, geomExcludedClaim, truthy]
    | bool b =>
      cases b with
      | false =>
        constructor
        · intro _; exact Or.inl rfl
        · intro _; rfl
      | true =>
        constructor
        · intro _; exact Or.inr (Or.inr ⟨.bool true, rfl, rfl⟩)
        · intro _; rfl
    | num q =>
      rcases eq_or_ne q 0 with hq | hq
      · subst hq
        constructor
        · intro _; exact Or.inl (by decide)
        · intro _; rfl
      · have ht : truthy (.num q) = true := by simp [truthy, hq]
        constructor
        · intro _; exact Or.inr (Or.inr ⟨.num q, rfl, rfl⟩)
        · intro _; simp [parseGeometry, ht, objGet, truthyOpt]
    | str s =>
      by_cases hs : s = ""
      · subst hs
        constructor
        · intro _; exact Or.inl rfl
        · intro _; rfl
      · have ht := truthy_str_of_ne s hs
        cases hj : jsonParse s with
        | none =>
          constructor
          · intro _; exact Or.inr (Or.inl ⟨s, rfl, hj⟩)
          · intro _; simp [parseGeometry, ht, hj]
        | some g =>
          cases htype : truthyOpt (objGet g "type") with
          | true =>
            constructor
            · intro hLHS
              exfalso
              simp [parseGeometry, ht, hj, htype] at hLHS
            · intro hRHS
              exfalso
              rcases hRHS with h1 | h2 | h3
              · rw [ht] at h1; cases h1
              · rcases h2 with ⟨s', hss, hps⟩
                injection hss with he
                subst he
                rw [hj] at hps
                cases hps
              · rcases h3 with ⟨g', hpg, hty⟩
                simp only [parsedOrSelf, hj, Option.some.injEq] at hpg
                subst hpg
                rw [htype] at hty
                cases hty
          | false =>
            constructor
            · intro _
              exact Or.inr (Or.inr ⟨g, by simp [parsedOrSelf, hj], htype⟩)
            · intro _; simp [parseGeometry, ht, hj, htype]
    | arr vs =>
      constructor
      · intro _; exact Or.inr (Or.inr ⟨.arr vs, rfl, rfl⟩)
      · intro _; rfl
    | obj kvs =>
      cases htype : truthyOpt (objGet (.obj kvs) "type") with
      | true =>
        constructor
        · intro hLHS
          exfalso
          simp [parseGeometry, truthy, htype] at hLHS
        · intro hRHS
          exfalso
          rcases hRHS with h1 | h2 | h3
          · simp [truthy] at h1
          · rcases h2 with ⟨s', hss, _⟩
            cases hss
          · rcases h3 with ⟨g', hpg, hty⟩
            simp only [parsedOrSelf, Option.some.injEq] at hpg
            subst hpg
            rw [htype] at hty
            cases hty
      | false =>
        constructor
        · intro _; exact Or.inr (Or.inr ⟨.obj kvs, rfl, htype⟩)
        · intro _; simp [parseGeometry, truthy, htype]

/-- An empty-equality transfer for strings. -/
theorem isEmpty_false_of_ne (s : String) (hs : s ≠ "") : s.isEmpty = false := by
  rw [Bool.eq_false_iff]
  intro hc
  exact hs ((String.isEmpty_iff s).mp hc)

/-- The photo-slot source list of a record. -/
def photoSrc (base : String) (r : NetRecord) : List String :=
  slotUrls base "img" r.id (getField (effFields r) "Photo")

/-- The image-slot source list of a record. -/
def imageSrc (base : String) (r : NetRecord) : List String :=
  slotUrls base "image" r.id (getField (effFields r) "Image")

/-- The de-duplicated re-normalized URL list of the collect-mode fallback
(line 320/336), before `slice(0, 6)`. -/
def dedupNorm (field : JsonVal) : List String :=
  ((collectPhotoUrls field).map normalizeUrl).foldl setAdd []

/-- The Feature produced for `sampleGood` at base `http://h`. -/
def sampleGoodFeat : Feature :=
  { geometry := .obj [("type", .str "Polygon")]
    id := "recY"
    name := .str "Net"
    leaders := "A, B"
    contact_email := ""
    status := ""
    county := ""
    tags := ""
    number_of_churches := .str ""
    photo1 := "http://h/img/recY/0"
    photo2 := "http://h/img/recY/1"
    photo3 := ""
    photo4 := ""
    photo5 := ""
    photo6 := ""
    photo_count := 2
    image1 := ""
    image2 := ""
    image3 := ""
    image4 := ""
    image5 := ""
    image6 := ""
    image_count := 0 }

/-- C2 counterexample: `overPhotoRec` has seven non-empty resolvable URLs
(eight collected entries), yet only five slots are populated and
`photo_count` is 5, because the whitespace-only `url` value resolves, is
collected first, normalizes to the empty string, and occupies the first
slot. -/
theorem slots_trunc_cex_c2 :
    (dedupNorm (getField (effFields overPhotoRec) "Photo")).length = 8 ∧
    countNonEmpty (dedupNorm (getField (effFields overPhotoRec) "Photo")) = 7 ∧
    (buildFeature "http://h" overPhotoRec).map (·.photo_count) = some 5 ∧
    (buildFeature "http://h" overPhotoRec).map (·.photo1) = some "" := by
  refine ⟨by decide, by decide, by decide, by decide⟩

/-- C2 amended: every accepted Feature has exactly six photo and six image
slots, read in order from its slot-source list with empty-string padding;
the counts equal the number of non-empty slots and lie in `0..6`; and in
collect mode, when more than six URLs are collected and every collected URL
is non-empty, exactly the first six are kept and the count is 6.  (With an
empty-string entry among the first six, as in the counterexample, the count
can fall short.) -/
theorem slots_c2 :
    (∀ (base : String) (r : NetRecord) (ft : Feature), buildFeature base r = some ft →
      ([ft.photo1, ft.photo2, ft.photo3, ft.photo4, ft.photo5, ft.photo6] =
         [nthSlot (photoSrc base r) 0, nthSlot (photoSrc base r) 1, nthSlot (photoSrc base r) 2,
          nthSlot (photoSrc base r) 3, nthSlot (photoSrc base r) 4, nthSlot (photoSrc base r) 5] ∧
       ft.photo_count =
         countNonEmpty [ft.photo1, ft.photo2, ft.photo3, ft.photo4, ft.photo5, ft.photo6] ∧
       ft.photo_count ≤ 6 ∧
       [ft.image1, ft.image2, ft.image3, ft.image4, ft.image5, ft.image6] =
         [nthSlot (imageSrc base r) 0, nthSlot (imageSrc base r) 1, nthSlot (imageSrc base r) 2,
          nthSlot (imageSrc base r) 3, nthSlot (imageSrc base r) 4, nthSlot (imageSrc base r) 5] ∧
       ft.image_count =
         countNonEmpty [ft.image1, ft.image2, ft.image3, ft.image4, ft.image5, ft.image6] ∧
       ft.image_count ≤ 6)) ∧
    (∀ (base route rid : String) (field : JsonVal), isAttachmentArray field = false →
      6 ≤ (dedupNorm field).length → (∀ u ∈ dedupNorm field, u ≠ "") →
      slotUrls base route rid field = (dedupNorm field).take 6 ∧
      countNonEmpty (slotUrls base route rid field) = 6) := by
  constructor
  · intro base r ft h
    cases hg : parseGeometry (getField (effFields r) "Polygon") with
    | none => simp [buildFeature, hg] at h
    | some geom =>
      simp only [buildFeature, hg, Option.some.injEq] at h
      subst h
      have hleP : (photoSrc base r).length ≤ 6 :=
        slotUrls_length_le base "img" r.id (getField (effFields r) "Photo")
      have hleI : (imageSrc base r).length ≤ 6 :=
        slotUrls_length_le base "image" r.id (getField (effFields r) "Image")
      refine ⟨rfl, ?_, ?_, rfl, ?_, ?_⟩
      · show countNonEmpty (photoSrc base r) =
          countNonEmpty [nthSlot (photoSrc base r) 0, nthSlot (photoSrc base r) 1,
            nthSlot (photoSrc base r) 2, nthSlot (photoSrc base r) 3,
            nthSlot (photoSrc base r) 4, nthSlot (photoSrc base r) 5]
        rw [pads_eq _ hleP, countNonEmpty_append_pad]
      · exact le_trans (List.length_filter_le _ _) hleP
      · show countNonEmpty (imageSrc base r) =
          countNonEmpty [nthSlot (imageSrc base r) 0, nthSlot (imageSrc base r) 1,
            nthSlot (imageSrc base r) 2, nthSlot (imageSrc base r) 3,
            nthSlot (imageSrc base r) 4, nthSlot (imageSrc base r) 5]
        rw [pads_eq _ hleI, countNonEmpty_append_pad]
      · exact le_trans (List.length_filter_le _ _) hleI
  · intro base route rid field hmode h6 hne
    have hslot : slotUrls base route rid field = (dedupNorm field).take 6 := by
      simp [slotUrls, hmode, dedupNorm]
    refine ⟨hslot, ?_⟩
    rw [hslot]
    unfold countNonEmpty
    have hsub : ∀ x ∈ (dedupNorm field).take 6, (!x.isEmpty) = true := by
      intro x hx
      have hmem := List.take_subset 6 _ hx
      rw [isEmpty_false_of_ne x (hne x hmem)]
      rfl
    rw [List.filter_eq_self.mpr hsub, List.length_take]
    exact Nat.min_eq_left h6

/-- C2 witness: the slot invariants at the concrete accepted record. -/
theorem slots_c2_w :
    sampleGoodFeat.photo_count =
      countNonEmpty [sampleGoodFeat.photo1, sampleGoodFeat.photo2, sampleGoodFeat.photo3,
        sampleGoodFeat.photo4, sampleGoodFeat.photo5, sampleGoodFeat.photo6] ∧
    sampleGoodFeat.photo_count ≤ 6 :=
  ⟨(slots_c2.1 "http://h" sampleGood sampleGoodFeat rfl).2.1,
   (slots_c2.1 "http://h" sampleGood sampleGoodFeat rfl).2.2.1⟩

/-- With a parseable index the handler never answers 400: every later branch
builds a redirect, not-found, or server-error response. -/
theorem imgHandler_not_bad (rid idx : String) (i : Nat) (now : Nat) (cache : CacheMap)
    (fr : Option JsonVal) (hp : parseIndex idx = some i) :
    (imgHandler rid idx now cache fr).1 ≠ ImgResult.badRequest := by
  intro hbad
  simp only [imgHandler, hp] at hbad
  split at hbad
  · simp at hbad
  · split at hbad
    · simp at hbad
    · split at hbad
      · simp at hbad
      · split at hbad
        · split at hbad
          · simp at hbad
          · simp at hbad
        · simp at hbad

/-- C9 counterexample: a fresh cache entry short-circuits the handler, so a
valid index whose record holds no attachment at all still gets a 302
redirect, not the 404 the claim requires. -/
theorem img_cache_cex_c9 :
    parseIndex "0" = some 0 ∧
    (attachmentsOf emptyPhotoRec).length = 0 ∧
    imgHandler "r1" "0" 50 warmCache (some emptyPhotoRec) =
      (ImgResult.redirect "http://cached", warmCache, false) ∧
    (imgHandler "r1" "0" 50 warmCache (some emptyPhotoRec)).1.isNotFound = false := by
  refine ⟨by decide, by decide, by decide, by decide⟩

/-- C9 amended: the handler answers 400 exactly when the index does not parse
as a non-negative integer, and then touches neither the upstream source nor
the cache; when the index is valid, the cache holds no fresh entry for
`(Photo, recordId, index)`, and the fetched record has no attachment at that
index — or the attachment is falsy or yields no resolvable URL — the handler
answers 404. -/
theorem img_handler_c9 :
    (∀ (rid idx : String) (now : Nat) (cache : CacheMap) (fr : Option JsonVal),
      ((imgHandler rid idx now cache fr).1 = ImgResult.badRequest ↔ parseIndex idx = none)) ∧
    (∀ (rid idx : String) (now : Nat) (cache : CacheMap) (fr : Option JsonVal),
      parseIndex idx = none →
      imgHandler rid idx now cache fr = (ImgResult.badRequest, cache, false)) ∧
    (∀ (rid idx : String) (i : Nat) (now : Nat) (cache : CacheMap) (rec : JsonVal),
      parseIndex idx = some i →
      (getCached cache ("Photo:" ++ rid ++ ":" ++ toString i) now).1 = none →
      ((attachmentsOf rec).get? i = none ∨
        (∃ att, (attachmentsOf rec).get? i = some att ∧
          (truthy att = false ∨ pickAttachmentUrl att = none))) →
      (imgHandler rid idx now cache (some rec)).1.isNotFound = true) := by
  refine ⟨fun rid idx now cache fr => ?_,
    fun rid idx now cache fr hp => by simp [imgHandler, hp],
    fun rid idx i now cache rec hp hc hmiss => ?_⟩
  · constructor
    · intro hbad
      by_contra hne
      obtain ⟨i, hpi⟩ := Option.ne_none_iff_exists'.mp hne
      exact imgHandler_not_bad rid idx i now cache fr hpi hbad
    · intro hp
      simp [imgHandler, hp]
  · simp only [imgHandler, hp]
    split
    · next url c1 heq =>
      rw [heq] at hc
      simp at hc
    · next c1 heq =>
      rcases hmiss with hnone | ⟨att, hatt, hcase⟩
      · split
        · rfl
        · next att2 hat2 =>
          rw [hnone] at hat2
          cases hat2
      · split
        · next hat2 =>
          rw [hatt] at hat2
          cases hat2
        · next att2 hat2 =>
          rw [hatt] at hat2
          injection hat2 with he
          subst he
          rcases hcase with htr | hpk
          · simp [htr, ImgResult.isNotFound]
          · cases htr2 : truthy att
            · simp [htr2, ImgResult.isNotFound]
            · simp [htr2, hpk, ImgResult.isNotFound]

/-- C9 witness: the 400 branch with an unparseable index leaves the cache
untouched and fetches nothing; a cache miss over an empty attachment array
answers 404. -/
theorem img_handler_c9_w :
    imgHandler "r1" "abc" 50 warmCache none = (ImgResult.badRequest, warmCache, false) ∧
    (imgHandler "r1" "0" 50 [] (some emptyPhotoRec)).1.isNotFound = true :=
  ⟨img_handler_c9.2.1 "r1" "abc" 50 warmCache none (by decide),
   img_handler_c9.2.2 "r1" "0" 0 50 [] emptyPhotoRec (by decide) (by decide) (Or.inl rfl)⟩
